import Mathlib

/-!
Verification of the SVG-to-raster normalizer in
`src/packages/tldraw/src/lib/utils/paths/svg_to_h5.py`.

The Python script scans SVG documents with a handful of `re` patterns,
computes a target raster resolution from the declared dimensions and a
vertex-count heuristic, rasterizes via an external library (cairosvg),
pads the bitmap, and writes batches of records.  This file embeds those
functions shallowly: strings become `List Char`, each concrete regular
expression is translated into the recursive scanner it denotes
(left-to-right search, lazy/greedy quantifier order made explicit),
Python floats become exact rationals, and fallible code returns
`Except PyErr`.  External collaborators (cairosvg, PNG/base64 encoding)
are passed in as explicit function parameters.
-/

deriving instance DecidableEq for Except

namespace SvgToH5

/-- Python exception constructors that the normalizer can raise. -/
inductive PyErr where
  | ZeroDivisionError : PyErr
  | ValueError : PyErr
  | MalformedDocument : PyErr
deriving DecidableEq

/-- Python `\s` on ASCII text: space, tab, newline, carriage return,
vertical tab, form feed. -/
def wsChar (c : Char) : Bool :=
  c = ' ' || c = '\t' || c = '\n' || c = '\r' || c = '\x0b' || c = '\x0c'

/-- ASCII decimal digit test. -/
def isDigit (c : Char) : Bool :=
  '0' ≤ c && c ≤ '9'

/-- The SVG path command letters of `count_vertices`:
`[MLHVCSQTAmlhvcsqta]`. -/
def isCmd (c : Char) : Bool :=
  c = 'M' || c = 'L' || c = 'H' || c = 'V' || c = 'C' || c = 'S' || c = 'Q' ||
  c = 'T' || c = 'A' ||
  c = 'm' || c = 'l' || c = 'h' || c = 'v' || c = 'c' || c = 's' || c = 'q' ||
  c = 't' || c = 'a'

/-- Uppercase a lowercase path command letter; every other character is
left unchanged. -/
def upperCmd (c : Char) : Char :=
  if c = 'm' then 'M' else if c = 'l' then 'L' else if c = 'h' then 'H'
  else if c = 'v' then 'V' else if c = 'c' then 'C' else if c = 's' then 'S'
  else if c = 'q' then 'Q' else if c = 't' then 'T' else if c = 'a' then 'A'
  else c

/-- `litPrefix lit cs` : does `cs` start with the literal `lit`? -/
def litPrefix : List Char → List Char → Bool
  | [], _ => true
  | _ :: _, [] => false
  | a :: as, b :: bs => a == b && litPrefix as bs

/-- `hasSub cs sub` : does `sub` occur as a contiguous substring of `cs`?
(Some position of `cs` starts with `sub`.) -/
def hasSub : List Char → List Char → Bool
  | [], sub => litPrefix sub []
  | c :: rest, sub => litPrefix sub (c :: rest) || hasSub rest sub

/-- Split a character list at its first `'"'`: the content before the
quote and the remainder after it.  `none` when no quote occurs.  This is
how `[^"]*"` consumes input: the character class cannot cross a quote,
so greedy and lazy variants both stop at the first `'"'`. -/
def quoteSplit : List Char → Option (List Char × List Char)
  | [] => none
  | c :: rest =>
    if c = '"' then some ([], rest)
    else (quoteSplit rest).map (fun p => (c :: p.1, p.2))

/-- Worker for `findPathData`, structurally recursive on a fuel bound.
Each recursive call is on a strict suffix of the input (the remainder
after a closing quote, or the tail), so any fuel of at least the input's
length gives the untruncated scan. -/
def findPathDataF : Nat → List Char → List (List Char)
  | 0, _ => []
  | _ + 1, [] => []
  | fuel + 1, c :: rest =>
    if litPrefix ['d', '=', '"'] (c :: rest) then
      match quoteSplit ((c :: rest).drop 3) with
      | some (cap, after) => cap :: findPathDataF fuel after
      | none => findPathDataF fuel rest
    else findPathDataF fuel rest

/-- Embedding of `re.findall(r'd="([^"]*)"', svg_content)` (line 53 of
`svg_to_h5.py`): scan left to right; wherever the three-character
literal `d="` starts, capture up to the next quote and resume after it
(non-overlapping matches); a position with no closing quote fails and the
scan advances one character, exactly as `re` retries later start
positions. -/
def findPathData (cs : List Char) : List (List Char) :=
  findPathDataF cs.length cs

theorem length_dropWhile_le (p : Char → Bool) :
    ∀ cs : List Char, (cs.dropWhile p).length ≤ cs.length := by
  intro cs
  induction cs with
  | nil => simp [List.dropWhile]
  | cons c rest ih =>
    by_cases h : p c
    · rw [List.dropWhile_cons, if_pos h]
      exact le_trans ih (Nat.le_succ _)
    · rw [List.dropWhile_cons, if_neg h]

/-- Worker for `cmdRuns`, structurally recursive on a fuel bound; each
recursive call is on a suffix of the tail, so any fuel of at least the
input's length gives the untruncated scan. -/
def cmdRunsF : Nat → List Char → List (List Char)
  | 0, _ => []
  | _ + 1, [] => []
  | fuel + 1, c :: rest =>
    if isCmd c then
      (c :: rest.takeWhile (fun d => !isCmd d)) ::
        cmdRunsF fuel (rest.dropWhile (fun d => !isCmd d))
    else cmdRunsF fuel rest

/-- Embedding of `re.findall(r'[MLHVCSQTAmlhvcsqta][^MLHVCSQTAmlhvcsqta]*', path)`
(line 60): each match is one command letter followed by the maximal run
of non-command characters; the scan skips non-command characters between
runs. -/
def cmdRuns (cs : List Char) : List (List Char) :=
  cmdRunsF cs.length cs

/-- `count_vertices` (lines 49–62): sum over every captured `d="..."`
string of the number of command-letter runs. -/
def count_vertices (svg : String) : Nat :=
  ((findPathData svg.toList).map (fun p => (cmdRuns p).length)).foldl (· + ·) 0

/-- Embedding of `re.search(r'width="([^"]*?)"', svg)` and its `height`
twin (lines 75–76), generalized over the literal: first position where
the literal starts and a closing quote follows; the lazy `[^"]*?` stops
at the first quote, like the greedy version.  A position with no closing
quote fails and the search moves one character to the right. -/
def searchCapture (lit : List Char) : List Char → Option (List Char)
  | [] => none
  | c :: rest =>
    if litPrefix lit (c :: rest) then
      match quoteSplit ((c :: rest).drop lit.length) with
      | some (cap, _) => some cap
      | none => searchCapture lit rest
    else searchCapture lit rest

/-- Length of the maximal whitespace run at the head of `cs`. -/
def wsRunLen : List Char → Nat
  | [] => 0
  | c :: rest => if wsChar c then wsRunLen rest + 1 else 0

/-- One lazy-chunk/greedy-whitespace stage of the viewBox pattern: all
ways to split `cs` as `A ++ ws ++ rest` with `A` an arbitrary chunk
(`[^"]*?`, quote-free by construction of the caller) and `ws` a nonempty
whitespace run (`\s+`), enumerated in the regex engine's backtracking
order: `A` shortest first (lazy), and for each `A` the whitespace run
longest first (greedy).  `acc` holds the reversed chunk read so far. -/
def stageSplits (acc : List Char) (cs : List Char) : List (List Char × List Char) :=
  let m := wsRunLen cs
  let here := (List.range m).map (fun j => (acc.reverse, cs.drop (m - j)))
  match cs with
  | [] => here
  | c :: rest => here ++ stageSplits (c :: acc) rest

/-- Match the interior of the viewBox pattern
`[^"]*?\s+[^"]*?\s+([^"]*?)\s+([^"]*?)"` against the quoted content
(`content` holds the characters strictly between the quotes): three
chunk/whitespace stages tried in backtracking order, the final capture
extending to the closing quote.  Returns the two captured groups. -/
def matchFields (content : List Char) : Option (List Char × List Char) :=
  (stageSplits [] content).findSome? fun s1 =>
    (stageSplits [] s1.2).findSome? fun s2 =>
      (stageSplits [] s2.2).findSome? fun s3 =>
        some (s3.1, s3.2)

/-- Embedding of
`re.search(r'viewBox="[^"]*?\s+[^"]*?\s+([^"]*?)\s+([^"]*?)"', svg)`
(line 69): at each occurrence of the literal `viewBox="`, the rest of the
pattern is confined to the text before the next quote (none of its
pieces can match `'"'`); if the quoted content does not decompose into
four whitespace-separated chunks the search advances one character. -/
def searchViewBox : List Char → Option (List Char × List Char)
  | [] => none
  | c :: rest =>
    if litPrefix "viewBox=\"".toList (c :: rest) then
      match quoteSplit ((c :: rest).drop 9) with
      | some (content, _) =>
        match matchFields content with
        | some r => some r
        | none => searchViewBox rest
      | none => searchViewBox rest
    else searchViewBox rest

/-- Numeric value of a digit string (most significant first). -/
def digitsToNat (cs : List Char) : Nat :=
  cs.foldl (fun n c => 10 * n + (c.toNat - 48)) 0

/-- Decimal mantissa of a Python float literal: `digits`, `digits.`,
`digits.digits` or `.digits` (at least one digit overall).  Returns the
value and the unconsumed remainder. -/
def parseMantissa (cs : List Char) : Option (ℚ × List Char) :=
  let ip := cs.takeWhile isDigit
  let rest := cs.dropWhile isDigit
  match rest with
  | '.' :: r2 =>
    let fp := r2.takeWhile isDigit
    let r3 := r2.dropWhile isDigit
    if ip.isEmpty && fp.isEmpty then none
    else some ((digitsToNat ip : ℚ) + (digitsToNat fp : ℚ) / 10 ^ fp.length, r3)
  | _ => if ip.isEmpty then none else some ((digitsToNat ip : ℚ), rest)

/-- Model of the Python builtin `float(str)` on the decimal forms the
script can meet: surrounding whitespace stripped, optional sign, decimal
mantissa, optional exponent.  (`inf`, `nan` and digit-group underscores
are not modelled.)  Python float values in this range are exact for the
small integers the claims use; the model computes with exact rationals.
`none` stands for `ValueError`. -/
def pyFloat (cs : List Char) : Option ℚ :=
  let cs := ((cs.dropWhile wsChar).reverse.dropWhile wsChar).reverse
  let (neg, cs) : Bool × List Char :=
    match cs with
    | '+' :: r => (false, r)
    | '-' :: r => (true, r)
    | _ => (false, cs)
  match parseMantissa cs with
  | none => none
  | some (mant, rest) =>
    match rest with
    | [] => some (if neg then -mant else mant)
    | e :: r =>
      if e = 'e' || e = 'E' then
        let (esgn, r) : ℤ × List Char :=
          match r with
          | '+' :: rr => (1, rr)
          | '-' :: rr => (-1, rr)
          | _ => (1, r)
        let ds := r.takeWhile isDigit
        if ds.isEmpty || !(r.dropWhile isDigit).isEmpty then none
        else
          let val := mant * (10 : ℚ) ^ (esgn * (digitsToNat ds : ℤ))
          some (if neg then -val else val)
      else none

/-- `extractDimensions` (spec §4.1; lines 68–78 of the script): viewBox
third and fourth fields if the viewBox pattern matches, else the
`width="..."`/`height="..."` captures, defaulting each missing one to
1024.  A captured string that `float()` rejects raises `ValueError`
(width parsed first, as in the source). -/
def extractDimensions (svg : String) : Except PyErr (ℚ × ℚ) :=
  match searchViewBox svg.toList with
  | some (g1, g2) =>
    match pyFloat g1 with
    | none => .error .ValueError
    | some w =>
      match pyFloat g2 with
      | none => .error .ValueError
      | some h => .ok (w, h)
  | none =>
    match (match searchCapture "width=\"".toList svg.toList with
           | some g => pyFloat g
           | none => some 1024) with
    | none => .error .ValueError
    | some w =>
      match (match searchCapture "height=\"".toList svg.toList with
             | some g => pyFloat g
             | none => some 1024) with
      | none => .error .ValueError
      | some h => .ok (w, h)

/-- `aspect_ratio = width / height` (line 80).  The caller checks
`height ≠ 0` first; Python raises `ZeroDivisionError` there. -/
def aspect_ratio (w h : ℚ) : ℚ := w / h

/-- `target_area = base_target_area + num_vertices * 800` with
`base_target_area = 40000` (lines 82–84). -/
def target_area (v : Nat) : ℤ := 40000 + v * 800

/-- `target_height = int(math.sqrt(target_area / aspect_ratio))`
(line 88).  Under exact real arithmetic `⌊√x⌋ = Nat.sqrt ⌊x⌋` for
`x ≥ 0` (no perfect square lies strictly between `⌊x⌋` and `x`), which
keeps the definition computable; the equality with the floor of the real
square root is proved below. -/
def target_height (w h : ℚ) (v : Nat) : ℤ :=
  Nat.sqrt ⌊(target_area v : ℚ) / aspect_ratio w h⌋.toNat

/-- `target_width = int(target_height * aspect_ratio)` (line 89).
`int()` truncates toward zero; wherever the script reaches this line the
operand is nonnegative (`target_height ≥ 0` and, had the aspect ratio
been negative, `math.sqrt` would already have raised), so truncation
coincides with the floor used here. -/
def target_width (w h : ℚ) (v : Nat) : ℤ :=
  ⌊(target_height w h v : ℚ) * aspect_ratio w h⌋

/-- The characters of the opening tag `<label>`. -/
def openTagL : List Char := ['<', 'l', 'a', 'b', 'e', 'l', '>']

/-- The characters of the closing tag `</label>`. -/
def closeTagL : List Char := ['<', '/', 'l', 'a', 'b', 'e', 'l', '>']

/-- Lazy capture scan of `(.*?)</label>`: succeed with the empty capture
as soon as `</label>` starts here, otherwise extend the capture by one
character — `.` never matches a newline (no `re.DOTALL`), so a newline
kills the attempt. -/
def labelScan : List Char → Option (List Char)
  | [] => none
  | c :: rest =>
    if litPrefix closeTagL (c :: rest) then some []
    else if c = '\n' then none
    else (labelScan rest).map (fun cap => c :: cap)

/-- Embedding of `re.search(r'<label>(.*?)</label>', svg)` (line 119):
try each start position left to right; where the literal `<label>`
starts, run the lazy capture scan; on failure move one character right,
exactly as `re.search` retries later start positions. -/
def searchLabel : List Char → Option (List Char)
  | [] => none
  | c :: rest =>
    if litPrefix openTagL (c :: rest) then
      match labelScan ((c :: rest).drop 7) with
      | some cap => some cap
      | none => searchLabel rest
    else searchLabel rest

/-- `extract_latex_from_svg` (lines 116–122): the first capture of the
label pattern, or the empty string when the pattern does not match. -/
def extract_latex_from_svg (svg : String) : String :=
  match searchLabel svg.toList with
  | some cap => String.mk cap
  | none => ""

/-- `svg_content.split("<label>")[0]` (line 92): the prefix of the
document strictly before the first occurrence of `<label>` (the whole
document when the tag is absent). -/
def takeBeforeLabel : List Char → List Char
  | [] => []
  | c :: rest =>
    if litPrefix openTagL (c :: rest) then []
    else c :: takeBeforeLabel rest

/-- A PIL bitmap: a color mode tag, pixel dimensions and a pixel map.
Pixel values are a type parameter; the script only creates, pastes and
hands bitmaps to the encoder, so their numeric representation never
matters. -/
structure PILImage (α : Type) where
  mode : String
  width : Nat
  height : Nat
  pixel : Nat → Nat → α

/-- `Image.new(mode, (w, h), color)`: a constant bitmap. -/
def ImageNew (mode : String) (w h : Nat) (color : α) : PILImage α :=
  ⟨mode, w, h, fun _ _ => color⟩

/-- `base.paste(img, (ox, oy))`: overwrite the rectangle of `base` at
offset `(ox, oy)` with `img`, leaving every other pixel of `base`. -/
def ImagePaste (base : PILImage α) (img : PILImage α) (ox oy : Nat) : PILImage α :=
  { base with
    pixel := fun x y =>
      if ox ≤ x ∧ x < ox + img.width ∧ oy ≤ y ∧ y < oy + img.height then
        img.pixel (x - ox) (y - oy)
      else base.pixel x y }

/-- `pad_image` (lines 32–46): a new bitmap of the same mode,
30 pixels larger on every side, filled with white (`white` stands for
the mode's white color), with the original pasted at offset (30, 30). -/
def pad_image (white : α) (img : PILImage α) : PILImage α :=
  let pad_width := 30
  let pad_height := 30
  let new_width := img.width + 2 * pad_width
  let new_height := img.height + 2 * pad_height
  let padded_img := ImageNew img.mode new_width new_height white
  ImagePaste padded_img img pad_width pad_height

/-- Modelled from the spec: the external collaborators of the normalizer
that are not part of this repository's code — `cairosvg.svg2png`
("if the document text is not valid vector markup, this fails with a
MalformedDocument error", rasterizing "onto a white background at
exactly (targetWidth, targetHeight) pixels"; `none` stands for that
failure) together with `Image.open` of its output, and the PNG/base64
encoder ("serialize to a lossless binary image format, then to a
text-safe binary-to-text encoding"). -/
structure RasterLib where
  svg2png : String → ℤ → ℤ → Option (PILImage Nat)
  encodePng : PILImage Nat → String

/-- White pixel value used for the padding background. -/
def whitePx : Nat := 255

/-- `svg_to_base64_image` (lines 64–113): extract dimensions, compute
the target resolution from the aspect ratio and the vertex count, strip
the label, rasterize, pad and encode.  Raises (in source order)
`ValueError` from `float()`, `ZeroDivisionError` from `width / height`,
`ZeroDivisionError` from `target_area / aspect_ratio` when the aspect
ratio is zero, `ValueError` from `math.sqrt` on a negative operand, and
`MalformedDocument` from the rasterizer. -/
def svg_to_base64_image (lib : RasterLib) (svg : String) : Except PyErr String :=
  match extractDimensions svg with
  | .error e => .error e
  | .ok (w, h) =>
    if h = 0 then .error .ZeroDivisionError
    else
      let v := count_vertices svg
      if aspect_ratio w h = 0 then .error .ZeroDivisionError
      else if ((target_area v : ℚ) / aspect_ratio w h) < 0 then .error .ValueError
      else
        let stripped := String.mk (takeBeforeLabel svg.toList)
        match lib.svg2png stripped (target_width w h v) (target_height w h v) with
        | none => .error .MalformedDocument
        | some png => .ok (lib.encodePng (pad_image whitePx png))

/-- The per-document record produced by `process_svg_file`. -/
structure SvgRecord where
  image : String
  label : String
deriving DecidableEq

/-- `process_svg_file` (lines 124–134): rasterize (which can fail and
propagates its exception), then extract the label. -/
def process_svg_file (lib : RasterLib) (svg : String) : Except PyErr SvgRecord :=
  match svg_to_base64_image lib svg with
  | .error e => .error e
  | .ok image => .ok ⟨image, extract_latex_from_svg svg⟩

/-- The four equal-length columns of one output HDF5 file
(lines 157–167). -/
structure H5File where
  images : List String
  problems : List String
  labels : List String
  confidences : List Nat
deriving DecidableEq

/-- The dataset-writing block of the `__main__` loop (lines 157–167):
four parallel columns built from one completed batch. -/
def write_h5 (batch : List SvgRecord) : H5File :=
  { images := batch.map (fun item => item.image)
    problems := batch.map (fun _ => "Interactive Math Lesson, Generic")
    labels := batch.map (fun item =>
      "<transcription>\n" ++ item.label ++ "\n</transcription>")
    confidences := batch.map (fun _ => 7) }

/-- The per-batch body of the `__main__` loop (lines 148–167):
`list(pool.imap(process_svg_file, batch_files))` collects every
document's result in order — the `list()` call re-raises the first
exception a worker raised, so one failing document aborts the whole
batch before anything is written; on success the batch is written as one
file.  Documents are given by their contents (the script reads each file
from disk inside `process_svg_file`). -/
def run_batch (lib : RasterLib) (batch_files : List String) : Except PyErr H5File :=
  (batch_files.mapM (process_svg_file lib)).map write_h5

/-! ### Concrete documents and a concrete raster library used in
witnesses and counterexamples -/

/-- The spec's worked example document: viewBox `0 0 200 100`, one path
with commands `M0,0 L50,50 L100,0`. -/
def docExample : String :=
  "<svg viewBox=\"0 0 200 100\"><path d=\"M0,0 L50,50 L100,0\"/></svg>"

/-- A document that declares an explicit zero height in its viewBox. -/
def docZeroH : String := "<svg viewBox=\"0 0 200 0\"></svg>"

/-- A concrete raster library: rejects exactly the document `<bad/>`
(standing for unparseable markup) and encodes every bitmap as `"png"`. -/
def libTest : RasterLib :=
  ⟨fun s _ _ => if s = "<bad/>" then none else some (ImageNew "RGBA" 1 1 whitePx),
   fun _ => "png"⟩

/-! ### Shared helper lemmas -/

theorem extractDimensions_default {svg : String}
    (h1 : searchViewBox svg.toList = none)
    (h2 : searchCapture "width=\"".toList svg.toList = none)
    (h3 : searchCapture "height=\"".toList svg.toList = none) :
    extractDimensions svg = .ok (1024, 1024) := by
  unfold extractDimensions
  rw [h1, h2, h3]

theorem svg_pipeline_default {lib : RasterLib} {svg : String}
    (h1 : searchViewBox svg.toList = none)
    (h2 : searchCapture "width=\"".toList svg.toList = none)
    (h3 : searchCapture "height=\"".toList svg.toList = none) :
    svg_to_base64_image lib svg =
      (match lib.svg2png (String.mk (takeBeforeLabel svg.toList))
             (target_width 1024 1024 (count_vertices svg))
             (target_height 1024 1024 (count_vertices svg)) with
       | none => .error .MalformedDocument
       | some png => .ok (lib.encodePng (pad_image whitePx png))) := by
  unfold svg_to_base64_image
  rw [extractDimensions_default h1 h2 h3]
  have h0 : ¬ ((1024 : ℚ) = 0) := by norm_num
  have ha : aspect_ratio (1024 : ℚ) 1024 = 1 := by norm_num [aspect_ratio]
  have hq : ¬ ((target_area (count_vertices svg) : ℚ) < 0) := by
    have h5 : (0 : ℤ) ≤ target_area (count_vertices svg) := by
      rw [target_area]; positivity
    intro hlt
    have h6 : ¬ ((0 : ℚ) ≤ (target_area (count_vertices svg) : ℚ)) := not_le.mpr hlt
    exact h6 (by exact_mod_cast h5)
  simp [h0, ha, div_one, hq]

/-! ### C4 — missing dimension metadata defaults to (1024, 1024) -/

/-- C4: for every document in which the viewBox pattern does not match
and neither a `width="..."` nor a `height="..."` attribute capture
matches, `extractDimensions` returns `(1024, 1024)` and raises no error
(the result is `Except.ok`, not an exception). -/
theorem c4_default_dimensions (svg : String)
    (h1 : searchViewBox svg.toList = none)
    (h2 : searchCapture "width=\"".toList svg.toList = none)
    (h3 : searchCapture "height=\"".toList svg.toList = none) :
    extractDimensions svg = .ok (1024, 1024) :=
  extractDimensions_default h1 h2 h3

/-- Witness for C4 at the concrete document `<svg><g/></svg>`, which has
no viewBox and no width/height attributes. -/
theorem c4_default_dimensions_witness :
    searchViewBox "<svg><g/></svg>".toList = none ∧
    searchCapture "width=\"".toList "<svg><g/></svg>".toList = none ∧
    searchCapture "height=\"".toList "<svg><g/></svg>".toList = none ∧
    extractDimensions "<svg><g/></svg>" = .ok (1024, 1024) :=
  ⟨by decide, by decide, by decide,
   c4_default_dimensions "<svg><g/></svg>" (by decide) (by decide) (by decide)⟩

/-! ### C5 — zero height and DivisionError -/

/-- C5 counterexample: the claim says `extractDimensions` always yields a
nonzero height and that `DivisionError` is possible only if the
defaulting logic is bypassed.  The document `<svg viewBox="0 0 200 0">`
goes through the normal extraction path, yields height 0, and the
pipeline raises `ZeroDivisionError` — no defaulting was bypassed. -/
theorem c5_counterexample :
    extractDimensions docZeroH = .ok (200, 0) ∧
    svg_to_base64_image libTest docZeroH = .error .ZeroDivisionError := by
  constructor <;> decide

/-- C5 amended: the defaulted dimensions (1024, 1024) are nonzero, so for
every document with no viewBox match and no width/height attribute match
the pipeline never raises `ZeroDivisionError`; but a document that
explicitly declares a zero height does raise it (see the
counterexample). -/
theorem c5_no_zerodiv_on_defaults (lib : RasterLib) (svg : String)
    (h1 : searchViewBox svg.toList = none)
    (h2 : searchCapture "width=\"".toList svg.toList = none)
    (h3 : searchCapture "height=\"".toList svg.toList = none) :
    svg_to_base64_image lib svg ≠ .error .ZeroDivisionError := by
  rw [svg_pipeline_default h1 h2 h3]
  rcases lib.svg2png (String.mk (takeBeforeLabel svg.toList))
      (target_width 1024 1024 (count_vertices svg))
      (target_height 1024 1024 (count_vertices svg)) with _ | png <;> simp

/-- Witness for C5's amended theorem at a concrete dimensionless
document. -/
theorem c5_no_zerodiv_on_defaults_witness :
    searchViewBox "<p/>".toList = none ∧
    svg_to_base64_image libTest "<p/>" ≠ .error .ZeroDivisionError :=
  ⟨by decide, c5_no_zerodiv_on_defaults libTest "<p/>" (by decide) (by decide) (by decide)⟩

/-! ### C2 — the spec's worked example -/

/-- C2 counterexample: on the example document the claim (and the spec)
says `countVertices` returns 2, reading `M0,0 L50,50 L100,0` as two
command runs; the scan actually counts one run per command letter
(M, L, L), so it returns 3, and the downstream numbers 41600/144/288 are
wrong as well. -/
theorem c2_counterexample : count_vertices docExample ≠ 2 := by decide

/-- C2 amended: on the example document `countVertices` returns 3 (one
run per command letter M, L, L), so targetArea = 40000 + 3·800 = 42400,
aspectRatio = 2, targetHeight = ⌊√21200⌋ = 145 and targetWidth = 290. -/
theorem c2_example_resolution :
    count_vertices docExample = 3 ∧
    extractDimensions docExample = .ok (200, 100) ∧
    aspect_ratio 200 100 = 2 ∧
    target_area 3 = 42400 ∧
    target_height 200 100 3 = 145 ∧
    target_width 200 100 3 = 290 := by
  have hsqrt : Nat.sqrt 21200 = 145 := by
    have hlo : 145 ≤ Nat.sqrt 21200 := Nat.le_sqrt.mpr (by norm_num)
    have hhi : Nat.sqrt 21200 < 146 := Nat.sqrt_lt.mpr (by norm_num)
    omega
  have ha : aspect_ratio (200 : ℚ) 100 = 2 := by norm_num [aspect_ratio]
  have hfl : (⌊(target_area 3 : ℚ) / aspect_ratio 200 100⌋).toNat = 21200 := by
    rw [ha, target_area]
    norm_num
    rfl
  have hth : target_height 200 100 3 = 145 := by
    rw [target_height, hfl, hsqrt]
    rfl
  refine ⟨by decide, by decide, ha, by decide, hth, ?_⟩
  rw [target_width, hth, ha]
  norm_num

/-! ### C10 — the d=" pattern also matches attributes ending in d -/

/-- C10: the path-data pattern `d="..."` matches inside `id="..."` as
well; this document contains no `<path` element at all, yet its
`id="M 10,10"` attribute makes `count_vertices` return 1 (nonzero). -/
theorem c10_id_attribute_counted :
    hasSub "<svg id=\"M 10,10\"><circle cx=\"5\"/></svg>".toList "<path".toList = false ∧
    count_vertices "<svg id=\"M 10,10\"><circle cx=\"5\"/></svg>" = 1 := by
  constructor <;> decide

/-! ### Label-extraction lemmas (C8, C9) -/

theorem litPrefix_head_false {t r : List Char} {a c : Char} (h : ¬ a = c) :
    litPrefix (a :: t) (c :: r) = false := by
  show (a == c && litPrefix t r) = false
  rw [beq_eq_false_iff_ne.mpr h, Bool.false_and]

theorem litPrefix_self_append (l r : List Char) : litPrefix l (l ++ r) = true := by
  induction l with
  | nil => rfl
  | cons a as ih =>
    show (a == a && litPrefix as (as ++ r)) = true
    rw [beq_self_eq_true, Bool.true_and, ih]

theorem searchLabel_no_open {cs : List Char} (h : hasSub cs openTagL = false) :
    searchLabel cs = none := by
  induction cs with
  | nil => rfl
  | cons c rest ih =>
    have h2 : (litPrefix openTagL (c :: rest) || hasSub rest openTagL) = false := h
    rw [Bool.or_eq_false_iff] at h2
    rw [searchLabel, h2.1]
    simp only [Bool.false_eq_true, if_false]
    exact ih h2.2

theorem mk_toList (s : String) : String.mk s.toList = s := rfl

/-- Skip the first `p.length` start positions of the label search: the
search attempt at position `i` is exactly the prefix test on
`(p ++ r).drop i`, so when it fails for every `i < p.length` — no
opening tag starts inside `p`, not even one straddling the boundary into
`r` — the search on `p ++ r` equals the search on `r`. -/
theorem searchLabel_pos_skip (p r : List Char)
    (h : ∀ i, i < p.length → litPrefix openTagL ((p ++ r).drop i) = false) :
    searchLabel (p ++ r) = searchLabel r := by
  induction p with
  | nil => rfl
  | cons c p ih =>
    have h0 : litPrefix openTagL (c :: (p ++ r)) = false := by
      have h1 := h 0 (by simp)
      simpa using h1
    show searchLabel (c :: (p ++ r)) = searchLabel r
    rw [searchLabel, h0]
    simp only [Bool.false_eq_true, if_false]
    exact ih (fun i hi => by
      have h2 := h (i + 1) (by simp only [List.length_cons]; omega)
      simpa using h2)

/-- When the opening tag starts at no position of `cs` at all, the label
search fails. -/
theorem searchLabel_all_fail (cs : List Char)
    (h : ∀ i, litPrefix openTagL (cs.drop i) = false) :
    searchLabel cs = none := by
  induction cs with
  | nil => rfl
  | cons c rest ih =>
    have h0 : litPrefix openTagL (c :: rest) = false := by simpa using h 0
    rw [searchLabel, h0]
    simp only [Bool.false_eq_true, if_false]
    exact ih (fun i => by simpa using h (i + 1))

/-- The lazy capture over `m ++ r`: when the closing tag starts at no
position inside `m` (also not straddling into `r`), `m` contains no
newline, and `r` itself starts with the closing tag, the capture is
exactly `m`. -/
theorem labelScan_pos_capture (m r : List Char)
    (hn : ∀ c ∈ m, c ≠ '\n')
    (h : ∀ i, i < m.length → litPrefix closeTagL ((m ++ r).drop i) = false)
    (hc : litPrefix closeTagL r = true) :
    labelScan (m ++ r) = some m := by
  induction m with
  | nil =>
    show labelScan r = some []
    cases r with
    | nil => exact absurd hc (by decide)
    | cons c rest =>
      rw [labelScan, hc]
      rfl
  | cons c m ih =>
    have h0 : litPrefix closeTagL (c :: (m ++ r)) = false := by
      simpa using h 0 (by simp)
    have hcn : ¬ c = '\n' := hn c (List.mem_cons_self c m)
    show labelScan (c :: (m ++ r)) = some (c :: m)
    rw [labelScan, h0]
    simp only [Bool.false_eq_true, if_false, hcn, if_false]
    rw [ih (fun d hd => hn d (List.mem_cons_of_mem c hd))
          (fun i hi => by
            have h2 := h (i + 1) (by simp only [List.length_cons]; omega)
            simpa using h2)]
    rfl

/-- The lazy capture dies at the newline after `a` when the closing tag
starts at no position inside `a`. -/
theorem labelScan_pos_newline (a r : List Char)
    (h : ∀ i, i < a.length → litPrefix closeTagL ((a ++ '\n' :: r).drop i) = false) :
    labelScan (a ++ '\n' :: r) = none := by
  induction a with
  | nil =>
    have hlit : litPrefix closeTagL ('\n' :: r) = false :=
      litPrefix_head_false (by decide)
    show labelScan ('\n' :: r) = none
    rw [labelScan, hlit]
    simp
  | cons c a ih =>
    have h0 : litPrefix closeTagL (c :: (a ++ '\n' :: r)) = false := by
      simpa using h 0 (by simp)
    show labelScan (c :: (a ++ '\n' :: r)) = none
    rw [labelScan, h0]
    by_cases hcn : c = '\n'
    · simp [hcn]
    · simp only [Bool.false_eq_true, if_false, hcn]
      rw [ih (fun i hi => by
        have h2 := h (i + 1) (by simp only [List.length_cons]; omega)
        simpa using h2)]
      rfl

/-- The label search on `p ++ <label> ++ m ++ </label> ++ s` captures
exactly `m` when the explicit opening tag is the first opening-tag
occurrence, the explicit closing tag is the first closing-tag occurrence
after it, and `m` has no newline. -/
theorem searchLabel_found (p m s : List Char)
    (h1 : ∀ i, i < p.length →
      litPrefix openTagL ((p ++ (openTagL ++ (m ++ (closeTagL ++ s)))).drop i) = false)
    (h2 : ∀ i, i < m.length →
      litPrefix closeTagL ((m ++ (closeTagL ++ s)).drop i) = false)
    (hn : ∀ c ∈ m, c ≠ '\n') :
    searchLabel (p ++ (openTagL ++ (m ++ (closeTagL ++ s)))) = some m := by
  rw [searchLabel_pos_skip _ _ h1]
  show searchLabel ('<' :: (['l', 'a', 'b', 'e', 'l', '>'] ++ (m ++ (closeTagL ++ s)))) = some m
  rw [searchLabel]
  rw [show litPrefix openTagL
        ('<' :: (['l', 'a', 'b', 'e', 'l', '>'] ++ (m ++ (closeTagL ++ s)))) = true from
      litPrefix_self_append openTagL _]
  rw [show (('<' :: (['l', 'a', 'b', 'e', 'l', '>'] ++ (m ++ (closeTagL ++ s))))).drop 7
        = m ++ (closeTagL ++ s) from rfl]
  rw [labelScan_pos_capture m _ hn h2 (litPrefix_self_append closeTagL _)]
  rfl

/-- C8 amended: `extract_latex_from_svg` returns the text strictly
between the first opening and the first closing label tag, provided that
text contains no newline (first conjunct: the hypotheses say the opening
tag at position `p.length` is the document's first opening-tag
occurrence and the closing tag after `m` is the first closing-tag
occurrence after it); and it returns the empty string, raising no error,
when no opening label tag is present (second conjunct). -/
theorem c8_label_extraction :
    (∀ p m s : String,
      (∀ i, i < p.toList.length →
        litPrefix openTagL
          ((p.toList ++ (openTagL ++ (m.toList ++ (closeTagL ++ s.toList)))).drop i) = false) →
      (∀ i, i < m.toList.length →
        litPrefix closeTagL ((m.toList ++ (closeTagL ++ s.toList)).drop i) = false) →
      (∀ c ∈ m.toList, c ≠ '\n') →
      extract_latex_from_svg (p ++ "<label>" ++ m ++ "</label>" ++ s) = m) ∧
    (∀ doc : String, hasSub doc.toList openTagL = false →
        extract_latex_from_svg doc = "") := by
  constructor
  · intro p m s h1 h2 hn
    have htl : (p ++ "<label>" ++ m ++ "</label>" ++ s).toList
        = p.toList ++ (openTagL ++ (m.toList ++ (closeTagL ++ s.toList))) := by
      show (p ++ "<label>" ++ m ++ "</label>" ++ s).data
          = p.data ++ (openTagL ++ (m.data ++ (closeTagL ++ s.data)))
      simp [String.data_append, openTagL, closeTagL]
    unfold extract_latex_from_svg
    rw [htl, searchLabel_found p.toList m.toList s.toList h1 h2 hn]
    exact mk_toList m
  · intro doc h
    unfold extract_latex_from_svg
    rw [searchLabel_no_open h]

/-- C9 amended: a document whose only label pair encloses text with a
newline yields the empty string — the pattern cannot match across the
line break.  The hypotheses say the opening tag at position `p.length`
is the document's only opening-tag occurrence (the only label pair) and
no closing tag starts inside `a`, the part before the newline.  (As
stated over all documents the claim fails: a later newline-free pair
would be matched instead, see the counterexample.) -/
theorem c9_first_pair_newline (p a b s : String)
    (honly : ∀ i,
      i < (p.toList ++ (openTagL ++
            (a.toList ++ '\n' :: (b.toList ++ (closeTagL ++ s.toList))))).length →
      i ≠ p.toList.length →
      litPrefix openTagL
        ((p.toList ++ (openTagL ++
          (a.toList ++ '\n' :: (b.toList ++ (closeTagL ++ s.toList))))).drop i) = false)
    (hnoclose : ∀ i, i < a.toList.length →
      litPrefix closeTagL
        ((a.toList ++ '\n' :: (b.toList ++ (closeTagL ++ s.toList))).drop i) = false) :
    extract_latex_from_svg (p ++ "<label>" ++ a ++ "\n" ++ b ++ "</label>" ++ s) = "" := by
  have hnl : "\n".data = ['\n'] := rfl
  have htl : (p ++ "<label>" ++ a ++ "\n" ++ b ++ "</label>" ++ s).toList
      = p.toList ++ (openTagL ++ (a.toList ++ '\n' :: (b.toList ++ (closeTagL ++ s.toList)))) := by
    show (p ++ "<label>" ++ a ++ "\n" ++ b ++ "</label>" ++ s).data
        = p.data ++ (openTagL ++ (a.data ++ '\n' :: (b.data ++ (closeTagL ++ s.data))))
    simp [String.data_append, openTagL, closeTagL, hnl]
  have hdoc : ∀ j,
      (p.toList ++ (openTagL ++
        (a.toList ++ '\n' :: (b.toList ++ (closeTagL ++ s.toList))))).drop
          (p.toList.length + 1 + j)
      = ((['l', 'a', 'b', 'e', 'l', '>'] : List Char) ++
          (a.toList ++ '\n' :: (b.toList ++ (closeTagL ++ s.toList)))).drop j := by
    intro j
    have e1 : p.toList ++ (openTagL ++
        (a.toList ++ '\n' :: (b.toList ++ (closeTagL ++ s.toList))))
        = (p.toList ++ ['<']) ++ (['l', 'a', 'b', 'e', 'l', '>'] ++
            (a.toList ++ '\n' :: (b.toList ++ (closeTagL ++ s.toList)))) := by
      rw [show openTagL = ['<'] ++ ['l', 'a', 'b', 'e', 'l', '>'] from rfl]
      simp [List.append_assoc]
    have e2 : p.toList.length + 1 + j = (p.toList ++ ['<']).length + j := by
      simp [List.length_append]
    rw [e1, e2, ← List.drop_drop, List.drop_left]
  have hskip : ∀ i, i < p.toList.length →
      litPrefix openTagL
        ((p.toList ++ (openTagL ++
          (a.toList ++ '\n' :: (b.toList ++ (closeTagL ++ s.toList))))).drop i) = false := by
    intro i hi
    refine honly i ?_ (by omega)
    simp only [List.length_append]
    omega
  have htail : ∀ i,
      litPrefix openTagL
        (((['l', 'a', 'b', 'e', 'l', '>'] : List Char) ++
          (a.toList ++ '\n' :: (b.toList ++ (closeTagL ++ s.toList)))).drop i) = false := by
    intro i
    rw [← hdoc i]
    by_cases hi : p.toList.length + 1 + i <
        (p.toList ++ (openTagL ++
          (a.toList ++ '\n' :: (b.toList ++ (closeTagL ++ s.toList))))).length
    · exact honly _ hi (by omega)
    · rw [List.drop_eq_nil_of_le (le_of_not_lt hi)]
      rfl
  unfold extract_latex_from_svg
  rw [htl, searchLabel_pos_skip _ _ hskip]
  show (match searchLabel
      ('<' :: (['l', 'a', 'b', 'e', 'l', '>'] ++
        (a.toList ++ '\n' :: (b.toList ++ (closeTagL ++ s.toList))))) with
    | some cap => String.mk cap
    | none => "") = ""
  rw [searchLabel]
  rw [show litPrefix openTagL
        ('<' :: (['l', 'a', 'b', 'e', 'l', '>'] ++
          (a.toList ++ '\n' :: (b.toList ++ (closeTagL ++ s.toList))))) = true from
      litPrefix_self_append openTagL _]
  rw [show (('<' :: (['l', 'a', 'b', 'e', 'l', '>'] ++
        (a.toList ++ '\n' :: (b.toList ++ (closeTagL ++ s.toList)))))).drop 7
        = a.toList ++ '\n' :: (b.toList ++ (closeTagL ++ s.toList)) from rfl]
  rw [labelScan_pos_newline _ _ hnoclose]
  rw [searchLabel_all_fail _ htail]
  rfl

/-! ### C8 and C9 claim theorems -/

/-- C8 counterexample: for the document `<label>a\nb</label>` the text
strictly between the first opening and first closing label tag is
`a\nb`, but `extract_latex_from_svg` returns `""` — the `.` of the
pattern cannot cross the newline. -/
theorem c8_counterexample :
    extract_latex_from_svg "<label>a\nb</label>" ≠ "a\nb" ∧
    extract_latex_from_svg "<label>a\nb</label>" = "" := by
  constructor <;> decide

/-- C9 counterexample: the claim says every document whose first label
pair encloses a newline yields `""`; but when a later newline-free pair
exists the search matches it instead — here the first pair encloses
`a\nb`, and the result is `"c"`, not `""`. -/
theorem c9_counterexample :
    extract_latex_from_svg "<label>a\nb</label><label>c</label>" = "c" ∧
    ("c" : String) ≠ "" := by
  constructor <;> decide

/-- Witness for C8's amended theorem on a realistic document:
`<svg><label>x^2+y^2=1</label></svg>` — the spec's own example label is
extracted exactly. -/
theorem c8_label_extraction_witness :
    (∀ i, i < "<svg>".toList.length →
      litPrefix openTagL
        (("<svg>".toList ++ (openTagL ++
          ("x^2+y^2=1".toList ++ (closeTagL ++ "</svg>".toList)))).drop i) = false) ∧
    extract_latex_from_svg ("<svg>" ++ "<label>" ++ "x^2+y^2=1" ++ "</label>" ++ "</svg>")
      = "x^2+y^2=1" :=
  ⟨by decide,
   c8_label_extraction.1 "<svg>" "x^2+y^2=1" "</svg>" (by decide) (by decide) (by decide)⟩

/-- Witness for C9's amended theorem on the realistic one-pair document
`<svg><label>a\nb</label></svg>`. -/
theorem c9_first_pair_newline_witness :
    (∀ i, i < "a".toList.length →
      litPrefix closeTagL
        (("a".toList ++ '\n' :: ("b".toList ++ (closeTagL ++ "</svg>".toList))).drop i) = false) ∧
    extract_latex_from_svg ("<svg>" ++ "<label>" ++ "a" ++ "\n" ++ "b" ++ "</label>" ++ "</svg>")
      = "" :=
  ⟨by decide,
   c9_first_pair_newline "<svg>" "a" "b" "</svg>" (by decide) (by decide)⟩


/-! ### C6 lemmas -/

theorem filter_dropWhile_not (cs : List Char) :
    ((cs.dropWhile (fun d => !isCmd d)).filter isCmd) = cs.filter isCmd := by
  induction cs with
  | nil => rfl
  | cons c r ih =>
    by_cases h : isCmd c
    · simp [List.dropWhile_cons, h]
    · simp [List.dropWhile_cons, List.filter_cons, h, ih]

theorem cmdRunsF_length : ∀ (fuel : Nat) (cs : List Char), cs.length ≤ fuel →
    (cmdRunsF fuel cs).length = (cs.filter isCmd).length := by
  intro fuel
  induction fuel with
  | zero =>
    intro cs h
    rw [List.eq_nil_of_length_eq_zero (Nat.le_zero.mp h)]
    rfl
  | succ fuel ih =>
    intro cs h
    match cs with
    | [] => rfl
    | c :: rest =>
      by_cases hc : isCmd c
      · have hlen : (rest.dropWhile (fun d => !isCmd d)).length ≤ fuel := by
          have h1 := length_dropWhile_le (fun d => !isCmd d) rest
          have h2 : rest.length ≤ fuel := by
            simp only [List.length_cons] at h
            omega
          omega
        rw [show cmdRunsF (fuel + 1) (c :: rest)
              = (c :: rest.takeWhile (fun d => !isCmd d)) ::
                cmdRunsF fuel (rest.dropWhile (fun d => !isCmd d)) from by
            simp [cmdRunsF, hc]]
        rw [List.length_cons, ih _ hlen, filter_dropWhile_not]
        simp [List.filter_cons, hc]
      · rw [show cmdRunsF (fuel + 1) (c :: rest) = cmdRunsF fuel rest from by
            simp [cmdRunsF, hc]]
        have h2 : rest.length ≤ fuel := by
          simp only [List.length_cons] at h
          omega
        rw [ih _ h2]
        simp [List.filter_cons, hc]

theorem isCmd_upperCmd (c : Char) : isCmd (upperCmd c) = isCmd c := by
  unfold upperCmd
  split_ifs with h1 h2 h3 h4 h5 h6 h7 h8 h9
  · subst h1; decide
  · subst h2; decide
  · subst h3; decide
  · subst h4; decide
  · subst h5; decide
  · subst h6; decide
  · subst h7; decide
  · subst h8; decide
  · subst h9; decide
  · rfl

/-- C6: `cmdRuns` splits a path command string into one run per command
letter (a command letter followed by the maximal run of non-command
characters), and the vertex count — the number of runs — is
case-insensitive: uppercasing every lowercase command letter leaves it
unchanged.  A second conjunct makes the run structure explicit: the
number of runs is exactly the number of command letters. -/
theorem c6_case_insensitive (path : List Char) :
    (cmdRuns (path.map upperCmd)).length = (cmdRuns path).length ∧
    (cmdRuns path).length = (path.filter isCmd).length := by
  have hbase : ∀ l : List Char, (cmdRuns l).length = (l.filter isCmd).length :=
    fun l => cmdRunsF_length l.length l le_rfl
  refine ⟨?_, hbase path⟩
  have hf : List.filter (isCmd ∘ upperCmd) path = List.filter isCmd path :=
    List.filter_congr (fun a _ => by simp [Function.comp, isCmd_upperCmd])
  rw [hbase, hbase, List.filter_map, List.length_map, hf]

/-! ### C7 — pad_image -/

/-- C7: `pad_image` yields a bitmap of exactly (w+60, h+60) in the same
color mode, with every pixel of the 30-pixel border on all four sides
white, and every pixel of the original image unchanged at offset
(30, 30). -/
theorem c7_pad_image {α : Type} (white : α) (img : PILImage α) :
    (pad_image white img).width = img.width + 60 ∧
    (pad_image white img).height = img.height + 60 ∧
    (pad_image white img).mode = img.mode ∧
    (∀ x y, x < img.width + 60 → y < img.height + 60 →
      (x < 30 ∨ img.width + 30 ≤ x ∨ y < 30 ∨ img.height + 30 ≤ y) →
      (pad_image white img).pixel x y = white) ∧
    (∀ x y, x < img.width → y < img.height →
      (pad_image white img).pixel (x + 30) (y + 30) = img.pixel x y) := by
  refine ⟨?_, ?_, rfl, ?_, ?_⟩
  · show img.width + 2 * 30 = img.width + 60
    omega
  · show img.height + 2 * 30 = img.height + 60
    omega
  · intro x y hx hy hcase
    show (if 30 ≤ x ∧ x < 30 + img.width ∧ 30 ≤ y ∧ y < 30 + img.height then
        img.pixel (x - 30) (y - 30) else white) = white
    rw [if_neg]
    rintro ⟨h1, h2, h3, h4⟩
    omega
  · intro x y hx hy
    show (if 30 ≤ x + 30 ∧ x + 30 < 30 + img.width ∧ 30 ≤ y + 30 ∧ y + 30 < 30 + img.height then
        img.pixel (x + 30 - 30) (y + 30 - 30) else white) = img.pixel x y
    rw [if_pos (by omega)]
    congr 1

/-- A small concrete bitmap for the C7 witness. -/
def imgC : PILImage Nat := ⟨"L", 2, 3, fun x y => 7 + x + 10 * y⟩

/-- Witness for C7 at a concrete 2×3 bitmap: the padded size is 62×63, a
border pixel is white and the original corner pixel sits at (30, 30). -/
theorem c7_pad_image_witness :
    (pad_image (1 : Nat) imgC).width = 62 ∧
    (pad_image (1 : Nat) imgC).pixel 0 0 = 1 ∧
    (pad_image (1 : Nat) imgC).pixel 30 30 = imgC.pixel 0 0 := by
  obtain ⟨hw, hh, hm, hb, hi⟩ := c7_pad_image (1 : Nat) imgC
  refine ⟨by rw [hw]; decide, ?_, hi 0 0 (by decide) (by decide)⟩
  exact hb 0 0 (by decide) (by decide) (Or.inl (by decide))



/-! ### C3 — the target-resolution formula -/

/-- Bridge between the computable `Nat.sqrt ⌊q⌋.toNat` used in
`target_height` and the floor of the real square root: no perfect square
lies strictly between `⌊q⌋` and `q`, so `⌊√q⌋ = Nat.sqrt ⌊q⌋` for
`q ≥ 0`, and both sides are 0 for `q < 0`. -/
theorem natSqrt_toNat_floor (q : ℚ) :
    (Nat.sqrt (⌊q⌋.toNat) : ℤ) = ⌊Real.sqrt (q : ℝ)⌋ := by
  rcases le_or_lt 0 q with hq | hq
  · have hfl : (0 : ℤ) ≤ ⌊q⌋ := Int.floor_nonneg.mpr hq
    set n := Nat.sqrt ⌊q⌋.toNat with hn
    have hlow : ((n : ℝ)) ^ 2 ≤ (q : ℝ) := by
      have a0 : (n : ℕ) ^ 2 ≤ ⌊q⌋.toNat := Nat.sqrt_le' _
      have a1 : ((n : ℤ)) ^ 2 ≤ ⌊q⌋ := by
        calc ((n : ℤ)) ^ 2 = ((n ^ 2 : ℕ) : ℤ) := by push_cast; ring
          _ ≤ (⌊q⌋.toNat : ℤ) := by exact_mod_cast a0
          _ = ⌊q⌋ := Int.toNat_of_nonneg hfl
      have a2 : ((⌊q⌋ : ℚ)) ≤ q := Int.floor_le q
      have a3 : ((n : ℝ)) ^ 2 ≤ ((⌊q⌋ : ℤ) : ℝ) := by exact_mod_cast a1
      have a4 : (((⌊q⌋ : ℤ)) : ℝ) ≤ (q : ℝ) := by exact_mod_cast a2
      linarith
    have hup : (q : ℝ) < ((n : ℝ) + 1) ^ 2 := by
      have b0 : ⌊q⌋.toNat < (n + 1) ^ 2 := by
        have b := Nat.lt_succ_sqrt' ⌊q⌋.toNat
        simpa [Nat.succ_eq_add_one] using b
      have b1 : ⌊q⌋ < ((n : ℤ) + 1) ^ 2 := by
        rw [← Int.toNat_of_nonneg hfl]
        exact_mod_cast b0
      have b2 : (q : ℚ) < ⌊q⌋ + 1 := Int.lt_floor_add_one q
      have b3 : ((⌊q⌋ : ℤ) : ℝ) + 1 ≤ ((n : ℝ) + 1) ^ 2 := by
        have b5 : ⌊q⌋ + 1 ≤ ((n : ℤ) + 1) ^ 2 := b1
        exact_mod_cast b5
      have b4 : (q : ℝ) < ((⌊q⌋ : ℤ) : ℝ) + 1 := by exact_mod_cast b2
      linarith
    symm
    rw [Int.floor_eq_iff]
    constructor
    · push_cast
      exact (Real.le_sqrt (by positivity) (by exact_mod_cast hq)).mpr hlow
    · push_cast
      exact (Real.sqrt_lt' (by positivity)).mpr hup
  · have h1 : ⌊q⌋.toNat = 0 := Int.toNat_of_nonpos (Int.floor_nonpos hq.le)
    have h2 : Real.sqrt (q : ℝ) = 0 := Real.sqrt_eq_zero'.mpr (by exact_mod_cast hq.le)
    rw [h1, h2]
    simp

/-- C3: for extracted width `w` and height `h` (`h` nonzero) and vertex
count `v`, the target resolution is targetArea = 40000 + v·800,
targetHeight = ⌊√(targetArea / (w/h))⌋ and
targetWidth = ⌊targetHeight · (w/h)⌋, with the square root and floors
read over the reals. -/
theorem c3_resolution_formula (w h : ℚ) (v : Nat) (_hh : h ≠ 0) :
    target_area v = 40000 + v * 800 ∧
    target_height w h v = ⌊Real.sqrt ((target_area v : ℝ) / ((w : ℝ) / (h : ℝ)))⌋ ∧
    target_width w h v = ⌊(target_height w h v : ℝ) * ((w : ℝ) / (h : ℝ))⌋ := by
  refine ⟨rfl, ?_, ?_⟩
  · rw [target_height, natSqrt_toNat_floor]
    congr 2
    rw [aspect_ratio]
    push_cast
    ring
  · rw [target_width, aspect_ratio, ← Rat.floor_cast (α := ℝ)]
    congr 1
    push_cast
    ring

/-- Witness for C3 at the example dimensions 200×100 with 3 vertices. -/
theorem c3_resolution_formula_witness :
    ((100 : ℚ) ≠ 0) ∧
    (target_height 200 100 3
      = ⌊Real.sqrt ((target_area 3 : ℝ) / ((200 : ℝ) / (100 : ℝ)))⌋) :=
  ⟨by norm_num, (c3_resolution_formula 200 100 3 (by norm_num)).2.1⟩



/-! ### C1 — per-document failure and the batch driver -/

/-- A well-formed dimensionless document accepted by `libTest`. -/
def goodDoc : String := "<svg></svg>"

/-- The document `libTest` rejects, standing for unparseable markup. -/
def badDoc : String := "<bad/>"

theorem process_good : process_svg_file libTest goodDoc = .ok ⟨"png", ""⟩ := by
  have hs : String.mk (takeBeforeLabel goodDoc.toList) = goodDoc := by decide
  have hb : svg_to_base64_image libTest goodDoc = .ok "png" := by
    rw [svg_pipeline_default (by decide) (by decide) (by decide), hs]
    rw [show libTest.svg2png goodDoc (target_width 1024 1024 (count_vertices goodDoc))
          (target_height 1024 1024 (count_vertices goodDoc))
          = some (ImageNew "RGBA" 1 1 whitePx) from by
        show (if goodDoc = "<bad/>" then none else some (ImageNew "RGBA" 1 1 whitePx))
            = some (ImageNew "RGBA" 1 1 whitePx)
        rw [if_neg (by decide)]]
    rfl
  rw [process_svg_file, hb]
  rw [show extract_latex_from_svg goodDoc = "" from by decide]

theorem process_bad : process_svg_file libTest badDoc = .error .MalformedDocument := by
  have hs : String.mk (takeBeforeLabel badDoc.toList) = badDoc := by decide
  have hb : svg_to_base64_image libTest badDoc = .error .MalformedDocument := by
    rw [svg_pipeline_default (by decide) (by decide) (by decide), hs]
    rw [show libTest.svg2png badDoc (target_width 1024 1024 (count_vertices badDoc))
          (target_height 1024 1024 (count_vertices badDoc)) = none from by
        show (if badDoc = "<bad/>" then none else some (ImageNew "RGBA" 1 1 whitePx)) = none
        rw [if_pos (by decide : badDoc = "<bad/>")]]
  rw [process_svg_file, hb]

theorem exceptMapM_ok_length {ε α β : Type} (f : α → Except ε β) :
    ∀ (l : List α) (bs : List β), l.mapM f = .ok bs → bs.length = l.length := by
  intro l
  induction l with
  | nil =>
    intro bs h
    rw [List.mapM_nil] at h
    cases h
    rfl
  | cons a l ih =>
    intro bs h
    rw [List.mapM_cons] at h
    cases hfa : f a with
    | error e => rw [hfa] at h; exact absurd h (by simp [Bind.bind, Except.bind])
    | ok b =>
      rw [hfa] at h
      cases hml : l.mapM f with
      | error e => rw [hml] at h; exact absurd h (by simp [Bind.bind, Except.bind])
      | ok bs' =>
        rw [hml] at h
        have hbs : b :: bs' = bs := by
          have h2 : (Except.ok (b :: bs') : Except ε (List β)) = .ok bs := h
          cases h2
          rfl
        rw [← hbs, List.length_cons, ih bs' hml, List.length_cons]

theorem exceptMapM_error_of_mem {ε α β : Type} (f : α → Except ε β) :
    ∀ (l : List α) (a : α), a ∈ l → (∃ e, f a = .error e) →
      ∃ e, l.mapM f = .error e := by
  intro l
  induction l with
  | nil => intro a ha _; exact absurd ha (List.not_mem_nil a)
  | cons b l ih =>
    intro a ha hfa
    rw [List.mapM_cons]
    cases hfb : f b with
    | error eb => exact ⟨eb, rfl⟩
    | ok vb =>
      rcases List.mem_cons.mp ha with rfl | hmem
      · obtain ⟨e, he⟩ := hfa
        rw [he] at hfb
        cases hfb
      · obtain ⟨e, he⟩ := ih a hmem hfa
        refine ⟨e, ?_⟩
        rw [he]
        rfl

theorem exceptMapM_replicate {ε α β : Type} (f : α → Except ε β) (g : α) (r : β)
    (hf : f g = .ok r) :
    ∀ n, (List.replicate n g).mapM f = .ok (List.replicate n r) := by
  intro n
  induction n with
  | zero => rw [List.replicate_zero, List.mapM_nil]; rfl
  | succ n ih =>
    rw [List.replicate_succ, List.mapM_cons, hf, ih, List.replicate_succ]
    rfl

/-- C1 counterexample: a batch of 2000 documents of which the last 5
fail rasterization.  The claim says the failing documents are dropped
and an output file with 1995 records is still written; in fact the
`list(pool.imap(...))` call re-raises the worker's exception, the whole
batch aborts with `MalformedDocument`, and no file is written at all. -/
theorem c1_counterexample :
    run_batch libTest (List.replicate 1995 goodDoc ++ List.replicate 5 badDoc)
      = .error .MalformedDocument := by
  have h1 : (List.replicate 1995 goodDoc).mapM (process_svg_file libTest)
      = .ok (List.replicate 1995 ⟨"png", ""⟩) :=
    exceptMapM_replicate _ _ _ process_good 1995
  have h2 : (List.replicate 5 badDoc).mapM (process_svg_file libTest)
      = .error .MalformedDocument := by
    rw [show (5 : Nat) = 4 + 1 from rfl, List.replicate_succ, List.mapM_cons, process_bad]
    rfl
  rw [run_batch, List.mapM_append, h1, h2]
  rfl

/-- C1 amended: a document whose normalization raises an error is NOT
dropped — it aborts its whole batch: when every document succeeds the
output file has exactly one record per document (first conjunct), and
when any document of the group fails the whole `run_batch` call returns
an error and no file is written (second conjunct). -/
theorem c1_batch_abort (lib : RasterLib) (docs : List String) :
    (∀ h5, run_batch lib docs = .ok h5 → h5.images.length = docs.length) ∧
    (∀ d ∈ docs, (∃ e, process_svg_file lib d = .error e) →
      ∃ e, run_batch lib docs = .error e) := by
  constructor
  · intro h5 hok
    rw [run_batch] at hok
    cases hm : docs.mapM (process_svg_file lib) with
    | error e => rw [hm] at hok; exact absurd hok (by simp [Except.map])
    | ok batch =>
      rw [hm] at hok
      have hw : write_h5 batch = h5 := by
        have h2 : (Except.ok (write_h5 batch) : Except PyErr H5File) = .ok h5 := hok
        cases h2
        rfl
      rw [← hw]
      show (batch.map (fun item => item.image)).length = docs.length
      rw [List.length_map]
      exact exceptMapM_ok_length _ docs batch hm
  · intro d hd hfail
    obtain ⟨e, he⟩ := exceptMapM_error_of_mem _ docs d hd hfail
    exact ⟨e, by rw [run_batch, he]; rfl⟩

/-- Witness for C1's amended theorem: a one-document batch whose
document fails rasterization makes `run_batch` fail. -/
theorem c1_batch_abort_witness :
    (∃ e, process_svg_file libTest badDoc = .error e) ∧
    (∃ e, run_batch libTest [badDoc] = .error e) :=
  ⟨⟨.MalformedDocument, process_bad⟩,
   (c1_batch_abort libTest [badDoc]).2 badDoc (List.mem_singleton.mpr rfl)
     ⟨.MalformedDocument, process_bad⟩⟩


end SvgToH5
